import Mathlib

/-!
Verification of `scripts/show-terminal-input.py`, a diagnostic utility that
puts the terminal into raw mode and prints the byte sequences produced by
key presses.  Bytes are modelled as natural numbers below 256; the input
stream and the wall clock are modelled as explicit traces passed to the
embedded functions.
-/

/-- Lowercase hexadecimal digit character for a value below 16, as produced
by Python's `x` format code (`0`–`9`, then `a`–`f`). -/
def hexDigit (n : Nat) : Char :=
  if n < 10 then Char.ofNat (48 + n) else Char.ofNat (87 + n)

/-- Rendering of one byte by Python's `f"{b:02x}"` format: two lowercase
hexadecimal digits.  Faithful for `b < 256`, which covers every byte. -/
def hex02 (b : Nat) : String :=
  String.mk [hexDigit (b / 16), hexDigit (b % 16)]

/-- Embedding of `_describe_bytes` (lines 19–44 of the script): classify a
byte sequence with a fixed list of rules tried top to bottom, returning the
empty string when no rule matches. -/
def _describe_bytes (data : List Nat) : String :=
  if data = [0x0D] then "CR (\\r) — often Enter/Return; also Ctrl+M"
  else if data = [0x0A] then "LF (\\n) — often newline; also Ctrl+J"
  else if data = [0x09] then "TAB (\\t) — also Ctrl+I"
  else if data = [0x1B] then "ESC"
  else if data = [0x7F] then "DEL (0x7f) — often Backspace"
  else if [0x1B, 0x5B].isPrefixOf data then "ANSI CSI sequence (starts with ESC [)"
  else if [0x1B, 0x4F].isPrefixOf data then "ANSI SS3 sequence (starts with ESC O)"
  else
    match data with
    | [b] => if b ≤ 0x1F then "Control byte 0x" ++ hex02 b else ""
    | _ => ""

/-- Outcome of the initial blocking `os.read(fd, 1)` (line 48): `some b`
when the read delivers a byte, `none` when the stream is already closed and
the read returns zero bytes. -/
def firstReadBytes : Option Nat → List Nat
  | some b => [b]
  | none => []

/-- One iteration of the coalescing loop of `_read_event` (lines 50–61),
as observed from outside: `none` means `select` timed out (no data within
the coalescing window); `some chunk` means `select` reported readiness and
`os.read(fd, 1024)` returned `chunk` (the empty chunk signals that the
stream closed). -/
abbrev Poll := Option (List Nat)

/-- Embedding of the `while True` coalescing loop of `_read_event`
(lines 50–61): walk the trace of `select`/`read` outcomes, appending each
non-empty chunk, and stop at the first timeout or zero-byte read.  An
exhausted trace is read as a final timeout. -/
def coalesce : List Poll → List Nat
  | [] => []
  | none :: _ => []
  | some [] :: _ => []
  | some (b :: cs) :: rest => b :: (cs ++ coalesce rest)

/-- Embedding of `_read_event` (lines 47–63): the bytes of the initial
blocking one-byte read followed by everything the coalescing loop
accumulates before its first timeout or zero-byte read. -/
def _read_event (first : Option Nat) (polls : List Poll) : List Nat :=
  firstReadBytes first ++ coalesce polls

/-- Trace of `select`/`read` outcomes for a coalescing window of 0 when the
bytes `buf` are already buffered on the descriptor and nothing else
arrives: `select` with timeout 0 reports readiness exactly while buffered
data remains, and each `os.read(fd, 1024)` consumes up to 1024 bytes. -/
def zeroPolls : List Nat → List Poll
  | [] => [none]
  | b :: rest => some ((b :: rest).take 1024) :: zeroPolls ((b :: rest).drop 1024)
termination_by l => l.length
decreasing_by simp only [List.length_drop, List.length_cons]; omega

lemma coalesce_zeroPolls_aux : ∀ (n : Nat) (buf : List Nat), buf.length ≤ n →
    coalesce (zeroPolls buf) = buf := by
  intro n
  induction n with
  | zero =>
    intro buf h
    have hb : buf = [] := List.eq_nil_of_length_eq_zero (Nat.le_zero.mp h)
    subst hb
    simp [zeroPolls, coalesce]
  | succ n ih =>
    intro buf h
    match buf with
    | [] => simp [zeroPolls, coalesce]
    | b :: rest =>
      rw [zeroPolls]
      have htake : (b :: rest).take 1024 = b :: rest.take 1023 := rfl
      have hdrop : (b :: rest).drop 1024 = rest.drop 1023 := rfl
      rw [htake, hdrop, coalesce]
      have hlen : (rest.drop 1023).length ≤ n := by
        simp only [List.length_drop]
        simp only [List.length_cons] at h
        omega
      rw [ih (rest.drop 1023) hlen]
      simp [List.take_append_drop]

/-- With zero coalescing window, `_read_event` returns the first byte
followed by every byte that was already buffered. -/
lemma read_event_zeroPolls (b : Nat) (buf : List Nat) :
    _read_event (some b) (zeroPolls buf) = b :: buf := by
  simp [_read_event, firstReadBytes,
    coalesce_zeroPolls_aux buf.length buf le_rfl]

lemma coalesce_closed : ∀ (chunks : List (List Nat)) (rest : List Poll),
    (∀ c ∈ chunks, c ≠ []) →
    coalesce (chunks.map some ++ some [] :: rest) = chunks.flatten := by
  intro chunks
  induction chunks with
  | nil => intro rest _; simp [coalesce]
  | cons c cs ih =>
    intro rest h
    have hc : c ≠ [] := h c (List.mem_cons_self c cs)
    obtain ⟨b, t, rfl⟩ := List.exists_cons_of_ne_nil hc
    have ih' := ih rest (fun x hx => h x (List.mem_cons_of_mem _ hx))
    simp [coalesce, ih']

/-- Claim C4: the describe rules are tried in priority order with first
match winning, so each of the five exact single-byte inputs CR, LF, TAB,
ESC and DEL yields its specific named label and not the generic
control-byte label. -/
theorem describe_specificLabels :
    _describe_bytes [0x0D] = "CR (\\r) — often Enter/Return; also Ctrl+M" ∧
    _describe_bytes [0x0A] = "LF (\\n) — often newline; also Ctrl+J" ∧
    _describe_bytes [0x09] = "TAB (\\t) — also Ctrl+I" ∧
    _describe_bytes [0x1B] = "ESC" ∧
    _describe_bytes [0x7F] = "DEL (0x7f) — often Backspace" ∧
    _describe_bytes [0x0D] ≠ "Control byte 0x" ++ hex02 0x0D ∧
    _describe_bytes [0x0A] ≠ "Control byte 0x" ++ hex02 0x0A ∧
    _describe_bytes [0x09] ≠ "Control byte 0x" ++ hex02 0x09 ∧
    _describe_bytes [0x1B] ≠ "Control byte 0x" ++ hex02 0x1B ∧
    _describe_bytes [0x7F] ≠ "Control byte 0x" ++ hex02 0x7F := by
  decide

/-- Claim C5: every single control byte other than TAB, CR, LF and ESC gets
the generic control-byte label carrying its two-digit lowercase hex
rendering. -/
theorem describe_controlByteFallback :
    ∀ b : Nat, b ≤ 0x1F → b ≠ 0x09 → b ≠ 0x0D → b ≠ 0x0A → b ≠ 0x1B →
    _describe_bytes [b] = "Control byte 0x" ++ hex02 b := by
  decide

/-- Witness for C5 at the concrete byte 0x00. -/
theorem describe_controlByteFallback_witness :
    (0 : Nat) ≤ 0x1F ∧ _describe_bytes [0] = "Control byte 0x" ++ hex02 0 :=
  ⟨by decide, describe_controlByteFallback 0 (by decide) (by decide)
    (by decide) (by decide) (by decide)⟩

/-- Claim C6: with a coalescing window of 0, `_read_event` still returns
every byte that was already buffered before the first timeout check — the
first byte plus the whole buffered suffix — not just the first byte. -/
theorem read_event_zeroWindow_drainsBuffer (b : Nat) (buf : List Nat) :
    _read_event (some b) (zeroPolls buf) = b :: buf ∧
    (_read_event (some b) (zeroPolls buf)).length = 1 + buf.length := by
  refine ⟨read_event_zeroPolls b buf, ?_⟩
  rw [read_event_zeroPolls b buf]
  simp [Nat.add_comm]

/-- Claim C7: if the stream closes during coalescing (a `read` returns zero
bytes after at least one byte has been accumulated), `_read_event` stops
coalescing and returns the bytes accumulated so far, without error. -/
theorem read_event_streamClosed_returnsAccumulated (b : Nat)
    (chunks : List (List Nat)) (rest : List Poll)
    (h : ∀ c ∈ chunks, c ≠ []) :
    _read_event (some b) (chunks.map some ++ some [] :: rest) =
      b :: chunks.flatten := by
  simp [_read_event, firstReadBytes, coalesce_closed chunks rest h]

/-- Witness for C7: first byte ESC, then chunks `[` and `A` arrive, then
the stream closes; the event is ESC `[` A. -/
theorem read_event_streamClosed_witness :
    _read_event (some 0x1B) ([[0x5B], [0x41]].map some ++ some [] :: []) =
      0x1B :: ([[0x5B], [0x41]] : List (List Nat)).flatten :=
  read_event_streamClosed_returnsAccumulated 0x1B [[0x5B], [0x41]] []
    (by decide)

/-- Counterexample to claim C8 as stated: when the stream is already closed,
the initial `os.read(fd, 1)` returns zero bytes, `select` then reports the
closed descriptor ready, the 1024-byte read also returns zero bytes, and
`_read_event` returns the empty sequence. -/
theorem read_event_empty_cex : _read_event none [some []] = [] := rfl

/-- Claim C8 (amended): whenever the initial blocking read delivers a byte,
the sequence returned by `_read_event` is non-empty. -/
theorem read_event_nonempty_of_firstByte (b : Nat) (polls : List Poll) :
    _read_event (some b) polls ≠ [] := by
  simp [_read_event, firstReadBytes]

/-- Bytes of Python's `data in (b"q", b"\x03")` exit test (line 97): the
event terminates the loop exactly when it equals the single byte `q` or the
single byte Ctrl+C. -/
def isExitSeq (data : List Nat) : Bool :=
  data == [0x71] || data == [0x03]

/-- Rendering of `" ".join(f"{b:02x}" for b in data)` (line 102). -/
def hex_bytes (data : List Nat) : String :=
  String.intercalate " " (data.map hex02)

/-- Rendering of the printable-ASCII filter (line 108): bytes in 32..126
appear as their character, every other byte as a dot. -/
def safe_repr (data : List Nat) : String :=
  String.mk (data.map fun b => if 32 ≤ b && b ≤ 126 then Char.ofNat b else '.')

/-- Suffix appended to the printed line for the describer's label
(lines 103–106): empty when no rule matched, otherwise the label prefixed
with a separator. -/
def descSuffix (data : List Nat) : String :=
  let d := _describe_bytes data
  if d = "" then "" else " | " ++ d

/-- Fields of one printed event line (line 109).  The wall-clock timestamp
and the host-language `repr` rendering of the raw bytes are environmental
formatting and are not modelled. -/
structure Line where
  counter : Nat
  len : Nat
  hex : String
  ascii : String
  desc : String
deriving DecidableEq

/-- The line printed for a non-exit event with the given counter value. -/
def mkLine (counter : Nat) (data : List Nat) : Line :=
  { counter := counter
    len := data.length
    hex := hex_bytes data
    ascii := safe_repr data
    desc := descSuffix data }

/-- One iteration of the `while True` loop of `main` (lines 94–110), as
observed from outside `_read_event`: either the event bytes it returned, or
an I/O fault (an `OSError` raised by `os.read` or `select.select`) that
propagates out of the loop. -/
inductive LoopEvent
  | bytes (data : List Nat)
  | ioFault
deriving DecidableEq

/-- How the loop of `main` ended: `brokeOut` via the exit-byte test,
`faulted` via a propagating I/O fault, or `running` when the trace is
exhausted with the loop still blocked in the next read. -/
inductive LoopOutcome
  | brokeOut
  | faulted
  | running
deriving DecidableEq

/-- Embedding of the read/print loop of `main` (lines 92–110): starting
from the given counter value, consume the event trace, emitting one line
per non-exit event, and report how the loop ended. -/
def runLoop : Nat → List LoopEvent → List Line × LoopOutcome
  | _, [] => ([], LoopOutcome.running)
  | _, LoopEvent.ioFault :: _ => ([], LoopOutcome.faulted)
  | counter, LoopEvent.bytes data :: rest =>
    if isExitSeq data then ([], LoopOutcome.brokeOut)
    else
      let out := runLoop (counter + 1) rest
      (mkLine (counter + 1) data :: out.1, out.2)

/-- How the process run of `main` ended: `exited code` when `main` returned
normally (line 119 raises `SystemExit(main())`), `faulted` when an
exception propagated out of `main`, `running` when the loop is still
blocked. -/
inductive MainOutcome
  | exited (code : Nat)
  | faulted
  | running
deriving DecidableEq

/-- Observable result of a run of `main`: its outcome, whether
`termios.tcgetattr` captured the original attributes (line 82), whether
`tty.setraw` was called (line 91), how many times `termios.tcsetattr`
restored the captured attributes (line 113), the printed event lines, and
the message printed to standard error, if any. -/
structure MainResult where
  outcome : MainOutcome
  captured : Bool
  rawSet : Bool
  restores : Nat
  lines : List Line
  stderrMsg : Option String
deriving DecidableEq

/-- Message printed to standard error when stdin is not a terminal
(line 77). -/
def notTtyMsg : String :=
  "stdin is not a TTY; run this in an interactive terminal."

/-- Embedding of `main` (lines 66–115): if stdin is not a tty, print the
message to standard error and return 2 before touching the terminal mode;
otherwise capture the attributes, enter raw mode, run the loop, and restore
the attributes in the `finally` block on every path out of the loop.  The
`--coalesce-ms` parsing and the clamping at line 83 only shape the window
passed to `_read_event` and are absorbed into the event trace. -/
def main_run (tty : Bool) (events : List LoopEvent) : MainResult :=
  if tty then
    let out := runLoop 0 events
    match out.2 with
    | LoopOutcome.brokeOut =>
      { outcome := MainOutcome.exited 0, captured := true, rawSet := true
        restores := 1, lines := out.1, stderrMsg := none }
    | LoopOutcome.faulted =>
      { outcome := MainOutcome.faulted, captured := true, rawSet := true
        restores := 1, lines := out.1, stderrMsg := none }
    | LoopOutcome.running =>
      { outcome := MainOutcome.running, captured := true, rawSet := true
        restores := 0, lines := out.1, stderrMsg := none }
  else
    { outcome := MainOutcome.exited 2, captured := false, rawSet := false
      restores := 0, lines := [], stderrMsg := some notTtyMsg }

/-- Exit status of the process for a given outcome of `main`: the returned
value for a normal return, 1 when an exception escapes `main` (the
interpreter prints the traceback and exits with status 1), and none while
the loop is still running. -/
def processExitCode : MainOutcome → Option Nat
  | MainOutcome.exited c => some c
  | MainOutcome.faulted => some 1
  | MainOutcome.running => none

/-- The lines emitted for a run of non-exit events starting from a given
counter value: counters count up from `c + 1`. -/
def linesOf : Nat → List (List Nat) → List Line
  | _, [] => []
  | c, d :: ds => mkLine (c + 1) d :: linesOf (c + 1) ds

lemma linesOf_length (pre : List (List Nat)) : ∀ c, (linesOf c pre).length = pre.length := by
  induction pre with
  | nil => intro c; simp [linesOf]
  | cons d ds ih => intro c; simp [linesOf, ih]

lemma linesOf_get (pre : List (List Nat)) : ∀ (c i : Nat) (h : i < (linesOf c pre).length),
    ((linesOf c pre).get ⟨i, h⟩).counter = c + i + 1 := by
  induction pre with
  | nil => intro c i h; simp [linesOf] at h
  | cons d ds ih =>
    intro c i h
    match i with
    | 0 => simp [linesOf, mkLine]
    | i + 1 =>
      simp only [linesOf, List.get_cons_succ]
      rw [ih (c + 1) i]
      omega

lemma runLoop_cons_nonexit (c : Nat) (d : List Nat) (rest : List LoopEvent)
    (hd : isExitSeq d = false) :
    runLoop c (LoopEvent.bytes d :: rest) =
      (mkLine (c + 1) d :: (runLoop (c + 1) rest).1, (runLoop (c + 1) rest).2) := by
  simp [runLoop, hd]

lemma runLoop_map_bytes (pre : List (List Nat)) :
    ∀ (c : Nat) (rest : List LoopEvent), (∀ x ∈ pre, isExitSeq x = false) →
    runLoop c (pre.map LoopEvent.bytes ++ rest) =
      (linesOf c pre ++ (runLoop (c + pre.length) rest).1,
       (runLoop (c + pre.length) rest).2) := by
  induction pre with
  | nil => intro c rest _; simp [linesOf]
  | cons d ds ih =>
    intro c rest h
    have hd : isExitSeq d = false := h d (List.mem_cons_self d ds)
    have ih' := ih (c + 1) rest (fun x hx => h x (List.mem_cons_of_mem _ hx))
    have hsplit : (d :: ds).map LoopEvent.bytes ++ rest =
        LoopEvent.bytes d :: (ds.map LoopEvent.bytes ++ rest) := by simp
    have harith : c + 1 + ds.length = c + (d :: ds).length := by
      simp only [List.length_cons]; omega
    rw [hsplit, runLoop_cons_nonexit c d _ hd, ih', harith]
    simp [linesOf]

lemma main_lines (events : List LoopEvent) :
    (main_run true events).lines = (runLoop 0 events).1 := by
  simp only [main_run, if_pos]
  cases h : (runLoop 0 events).2 <;> simp [h]

/-- Claim C1: once the attributes are captured and raw mode entered, every
control path out of the main loop — the exit bytes or a propagating fault —
restores the captured attributes exactly once before the process exits, and
a fault still exits with a non-zero status. -/
theorem main_restoresModeExactlyOnce (events : List LoopEvent)
    (h : (runLoop 0 events).2 ≠ LoopOutcome.running) :
    (main_run true events).captured = true ∧
    (main_run true events).rawSet = true ∧
    (main_run true events).restores = 1 ∧
    ((runLoop 0 events).2 = LoopOutcome.brokeOut →
      (main_run true events).outcome = MainOutcome.exited 0) ∧
    ((runLoop 0 events).2 = LoopOutcome.faulted →
      (main_run true events).outcome = MainOutcome.faulted ∧
      ∃ c, processExitCode (main_run true events).outcome = some c ∧ c ≠ 0) := by
  cases h2 : (runLoop 0 events).2 with
  | brokeOut => simp [main_run, h2, processExitCode]
  | faulted => simp [main_run, h2, processExitCode]
  | running => exact absurd h2 h

/-- Witness for C1 on a trace whose single event is an I/O fault. -/
theorem main_restoresModeExactlyOnce_witness :
    ((runLoop 0 [LoopEvent.ioFault]).2 ≠ LoopOutcome.running) ∧
    ((main_run true [LoopEvent.ioFault]).captured = true ∧
     (main_run true [LoopEvent.ioFault]).rawSet = true ∧
     (main_run true [LoopEvent.ioFault]).restores = 1 ∧
     ((runLoop 0 [LoopEvent.ioFault]).2 = LoopOutcome.brokeOut →
       (main_run true [LoopEvent.ioFault]).outcome = MainOutcome.exited 0) ∧
     ((runLoop 0 [LoopEvent.ioFault]).2 = LoopOutcome.faulted →
       (main_run true [LoopEvent.ioFault]).outcome = MainOutcome.faulted ∧
       ∃ c, processExitCode (main_run true [LoopEvent.ioFault]).outcome = some c ∧
         c ≠ 0)) :=
  ⟨by decide, main_restoresModeExactlyOnce [LoopEvent.ioFault] (by decide)⟩

/-- Claim C2: when stdin is not an interactive terminal, the run prints the
message directing the user to an interactive terminal to standard error,
exits with status 2, and neither captures attributes nor enters raw mode. -/
theorem main_notTty_exits2 (events : List LoopEvent) :
    (main_run false events).outcome = MainOutcome.exited 2 ∧
    (main_run false events).captured = false ∧
    (main_run false events).rawSet = false ∧
    (main_run false events).restores = 0 ∧
    (main_run false events).stderrMsg =
      some "stdin is not a TTY; run this in an interactive terminal." := by
  simp [main_run, notTtyMsg]

/-- Claim C3: an event terminates the loop exactly when it equals the
single byte `q` or the single byte Ctrl+C, and when such an event arrives
the loop exits without printing a line for it, the mode is restored and the
process exits with status 0. -/
theorem main_exitBytes_terminate (pre : List (List Nat)) (d : List Nat)
    (hpre : ∀ x ∈ pre, isExitSeq x = false) (hd : isExitSeq d = true) :
    (∀ s : List Nat, isExitSeq s = true ↔ (s = [0x71] ∨ s = [0x03])) ∧
    (main_run true (pre.map LoopEvent.bytes ++ [LoopEvent.bytes d])).outcome =
      MainOutcome.exited 0 ∧
    (main_run true (pre.map LoopEvent.bytes ++ [LoopEvent.bytes d])).restores = 1 ∧
    (main_run true (pre.map LoopEvent.bytes ++ [LoopEvent.bytes d])).lines.length =
      pre.length := by
  have hiff : ∀ s : List Nat, isExitSeq s = true ↔ (s = [0x71] ∨ s = [0x03]) := by
    intro s
    simp [isExitSeq]
  have hrun := runLoop_map_bytes pre 0 [LoopEvent.bytes d] hpre
  have hlast : runLoop (0 + pre.length) [LoopEvent.bytes d] =
      ([], LoopOutcome.brokeOut) := by
    simp [runLoop, hd]
  rw [hlast] at hrun
  refine ⟨hiff, ?_, ?_, ?_⟩ <;>
    simp [main_run, hrun, linesOf_length]

/-- Witness for C3: one ordinary event `A` followed by the byte `q`. -/
theorem main_exitBytes_terminate_witness :
    (∀ x ∈ ([[0x41]] : List (List Nat)), isExitSeq x = false) ∧
    ((∀ s : List Nat, isExitSeq s = true ↔ (s = [0x71] ∨ s = [0x03])) ∧
     (main_run true (([[0x41]] : List (List Nat)).map LoopEvent.bytes ++
       [LoopEvent.bytes [0x71]])).outcome = MainOutcome.exited 0 ∧
     (main_run true (([[0x41]] : List (List Nat)).map LoopEvent.bytes ++
       [LoopEvent.bytes [0x71]])).restores = 1 ∧
     (main_run true (([[0x41]] : List (List Nat)).map LoopEvent.bytes ++
       [LoopEvent.bytes [0x71]])).lines.length =
       ([[0x41]] : List (List Nat)).length) :=
  ⟨by decide, main_exitBytes_terminate [[0x41]] [0x71] (by decide) (by decide)⟩

/-- Claim C9: for a run of events none of which is an exit sequence, one
line is printed per event and the counter on the Nth printed line is
exactly N, counted from 1. -/
theorem main_counterEqualsLineIndex (ds : List (List Nat))
    (h : ∀ d ∈ ds, isExitSeq d = false) :
    (main_run true (ds.map LoopEvent.bytes)).lines.length = ds.length ∧
    ∀ (i : Nat) (hi : i < (main_run true (ds.map LoopEvent.bytes)).lines.length),
      ((main_run true (ds.map LoopEvent.bytes)).lines.get ⟨i, hi⟩).counter =
        i + 1 := by
  have hrun := runLoop_map_bytes ds 0 [] h
  have hlines : (main_run true (ds.map LoopEvent.bytes)).lines = linesOf 0 ds := by
    rw [main_lines]
    have hnil : ds.map LoopEvent.bytes = ds.map LoopEvent.bytes ++ [] := by simp
    rw [hnil, hrun]
    simp [runLoop]
  constructor
  · rw [hlines, linesOf_length]
  · intro i
    rw [hlines]
    intro hi
    rw [linesOf_get ds 0 i hi]
    omega

/-- Witness for C9 on the two ordinary events `A` and `B`. -/
theorem main_counterEqualsLineIndex_witness :
    (∀ d ∈ ([[0x41], [0x42]] : List (List Nat)), isExitSeq d = false) ∧
    (main_run true (([[0x41], [0x42]] : List (List Nat)).map
      LoopEvent.bytes)).lines.length = ([[0x41], [0x42]] : List (List Nat)).length :=
  ⟨by decide, (main_counterEqualsLineIndex [[0x41], [0x42]] (by decide)).1⟩

/-- Claim C10: an event of two or more bytes never passes the exact-equality
exit test, even if it contains `q` or Ctrl+C among its bytes, so it is
counted, described and printed like any other event and the loop goes on
with the remaining trace. -/
theorem loop_continuesOnMultibyte (d : List Nat) (c : Nat)
    (rest : List LoopEvent) (h : 2 ≤ d.length) :
    isExitSeq d = false ∧
    runLoop c (LoopEvent.bytes d :: rest) =
      (mkLine (c + 1) d :: (runLoop (c + 1) rest).1, (runLoop (c + 1) rest).2) := by
  have hne : ¬(d = [0x71] ∨ d = [0x03]) := by
    rintro (rfl | rfl) <;> exact absurd h (by decide)
  have hex : isExitSeq d = false := by
    cases hq : isExitSeq d
    · rfl
    · exact absurd (by simpa [isExitSeq] using hq) hne
  exact ⟨hex, runLoop_cons_nonexit c d rest hex⟩

/-- Witness for C10 on the two-byte event `q` followed by `A`. -/
theorem loop_continuesOnMultibyte_witness :
    2 ≤ ([0x71, 0x41] : List Nat).length ∧
    (isExitSeq [0x71, 0x41] = false ∧
     runLoop 0 [LoopEvent.bytes [0x71, 0x41]] =
       (mkLine 1 [0x71, 0x41] :: (runLoop 1 []).1, (runLoop 1 []).2)) :=
  ⟨by decide, loop_continuesOnMultibyte [0x71, 0x41] 0 [] (by decide)⟩
